import Mathlib

/-!
Verification development for the graph-surgery core of `kerasprune/prune.py`
(tf-keras-surgeon).  The Python source is shallowly embedded: numpy arrays
become rose trees of scalars (`Nd`), Keras layers become `Layer` records,
symbolic Keras tensors become the inductive `Tensor`, raised exceptions become
`Except Err`, and the recursive model rebuild with its shared mutable caches
becomes an explicitly state-passing, fuel-bounded recursion.
-/

set_option maxRecDepth 8000

deriving instance DecidableEq for Except

namespace KerasPrune

/-- A numpy ndarray of booleans or ints, embedded as a rose tree: `.i`/`.b` are
0-d scalars, `.a` is an array axis.  Row-major element order of an array is the
left-to-right order of the tree leaves. -/
inductive Nd where
  | i : Int → Nd
  | b : Bool → Nd
  | a : List Nd → Nd

mutual
/-- Boolean equality on ndarrays. -/
def Nd.beq : Nd → Nd → Bool
  | .i x, .i y => x == y
  | .b x, .b y => x == y
  | .a xs, .a ys => Nd.beqList xs ys
  | _, _ => false

/-- Boolean equality on lists of ndarrays. -/
def Nd.beqList : List Nd → List Nd → Bool
  | [], [] => true
  | x :: xs, y :: ys => Nd.beq x y && Nd.beqList xs ys
  | _, _ => false
end

mutual
theorem Nd.beq_iff : ∀ x y : Nd, Nd.beq x y = true ↔ x = y
  | .i _, .i _ => by simp [Nd.beq]
  | .i _, .b _ => by simp [Nd.beq]
  | .i _, .a _ => by simp [Nd.beq]
  | .b _, .i _ => by simp [Nd.beq]
  | .b _, .b _ => by simp [Nd.beq]
  | .b _, .a _ => by simp [Nd.beq]
  | .a _, .i _ => by simp [Nd.beq]
  | .a _, .b _ => by simp [Nd.beq]
  | .a xs, .a ys => by simp [Nd.beq, Nd.beqList_iff xs ys]

theorem Nd.beqList_iff : ∀ xs ys : List Nd, Nd.beqList xs ys = true ↔ xs = ys
  | [], [] => by simp [Nd.beqList]
  | [], _ :: _ => by simp [Nd.beqList]
  | _ :: _, [] => by simp [Nd.beqList]
  | x :: xs, y :: ys => by
      simp [Nd.beqList, Nd.beq_iff x y, Nd.beqList_iff xs ys]
end

instance Nd.decEq : DecidableEq Nd :=
  fun x y => decidable_of_iff _ (Nd.beq_iff x y)

/-- A delete mask: `none` embeds Python `None` ("no deletion reaches this
point"), `some m` a boolean ndarray. -/
abbrev Mask := Option Nd

/-- The exceptions the Python code can raise, one constructor per raise site
(plus `outOfFuel`, which stands for nontermination / RecursionError of the
unbounded Python recursion; it is unreachable on acyclic graphs given enough
fuel). -/
inductive Err where
  /-- ValueError("layer is not a valid Layer in model.") in reused_core_logic. -/
  | operationNotFound
  /-- ValueError("Cannot insert new layer at node with multiple inbound layers.") -/
  | multiInputUnsupported
  /-- ValueError raised by zip(*[]) unpacking when a node has no inbound layers
  (and by rebuild_submodel on an empty output_layers list). -/
  | danglingOperation
  /-- ValueError("... layers are currently unsupported.") in _apply_delete_mask. -/
  | unsupportedOperationKind
  /-- ValueError("Channels_index value(s) out of range. ...") in _delete_channel_weights. -/
  | channelIndexOutOfRange
  /-- ValueError("The layer must have either a units or filters property ...") -/
  | missingChannelDimension
  /-- RuntimeError("This should never get here!") for an InputLayer reached with
  a non-absent mask. -/
  | inputLayerReached
  /-- Python IndexError / numpy indexing or reshape errors. -/
  | indexError
  /-- ValueError("No such layer ...") from Model.get_layer. -/
  | noSuchLayer
  /-- Recursion fuel exhausted (models RecursionError on cyclic graphs). -/
  | outOfFuel
deriving DecidableEq

/-- Is an ndarray a 0-d scalar? -/
def Nd.isScalar : Nd → Bool
  | .a _ => false
  | _ => true

/-- Numpy np.ones(shape, dtype=bool): an all-true boolean ndarray of a given shape
(shape `[]` is the 0-d scalar `True`). -/
def ndOnes : List Nat → Nd
  | [] => .b true
  | d :: rest => .a (List.replicate d (ndOnes rest))

/-- Truthiness of a numpy scalar (as used by np.where / np.nonzero). -/
def Nd.truthy : Nd → Bool
  | .i x => x != 0
  | .b x => x
  | .a _ => false

mutual
/-- Number of truthy scalar elements of an ndarray. -/
def Nd.countTrue : Nd → Nat
  | .i x => if x != 0 then 1 else 0
  | .b x => if x then 1 else 0
  | .a xs => Nd.countTrueList xs

/-- Number of truthy scalar elements of a list of ndarrays. -/
def Nd.countTrueList : List Nd → Nat
  | [] => 0
  | x :: xs => x.countTrue + Nd.countTrueList xs
end

/-- Helper for npWhere0: walk the first axis, emitting each index once per
truthy element below it. -/
def npWhere0Go (j : Nat) : List Nd → List Nat
  | [] => []
  | x :: xs => List.replicate x.countTrue j ++ npWhere0Go (j + 1) xs

/-- Numpy np.where(mask)[0]: the first-axis coordinate of every truthy element of
`mask`, in row-major order (so coordinate `j` appears once per truthy element
in the `j`-th subarray).  Only arrays (rank at least 1) reach this operation in
the code under study; np.nonzero rejects 0-d input, embedded as the empty
coordinate list. -/
def npWhere0 : Nd → List Nat
  | .a xs => npWhere0Go 0 xs
  | _ => []

/-- Fancy numpy row indexing w[idxs, :]: select the given first-axis entries
(repetition allowed); an out-of-range index raises IndexError. -/
def selectRows (w : Nd) (idxs : List Nat) : Except Err Nd :=
  match w with
  | .a rows =>
    match idxs.mapM (fun j => rows.get? j) with
    | some sel => .ok (.a sel)
    | none => .error .indexError
  | _ => .error .indexError

mutual
/-- Row-major list of the scalar leaves of an ndarray (np.reshape(m, [-1])). -/
def Nd.flat : Nd → List Nd
  | .i x => [.i x]
  | .b x => [.b x]
  | .a xs => Nd.flatList xs

/-- Row-major leaves of a list of ndarrays. -/
def Nd.flatList : List Nd → List Nd
  | [] => []
  | x :: xs => x.flat ++ Nd.flatList xs
end

/-- Numpy np.reshape(m, [-1]): flatten to 1-D in row-major order. -/
def ndFlatten (m : Nd) : Nd := .a m.flat

/-- A Keras layer, embedded as an immutable record.  `units`/`filters` are the
optional channel-count config entries (Python ints); `weights` is the list
returned by get_weights(); `outputShape` and `inputShape` embed
output_shape[1:] and input_shape[1:] (batch dimension already stripped).
Distinct Python layer objects are embedded as records with distinct names;
Python object identity becomes structural equality. -/
structure Layer where
  cls : String
  name : String
  units : Option Int := none
  filters : Option Int := none
  kernelSize : List Nat := []
  dataFormat : Option String := none
  weights : List Nd := []
  outputShape : List Nat := []
  inputShape : List Nat := []
deriving DecidableEq

/-- Python extract_if_single_element applied to the inbound mask list, followed by the
implicit np.asarray coercion the numpy mask operations perform: a one-element
list stands for its element (never None here, because the all-None fast path
was already taken); a longer list is coerced to a stacked array when every
entry is an array, and raises (object-array truthiness is ambiguous) when some
entry is None. -/
def extractMask (ms : List Mask) : Except Err Nd :=
  match ms with
  | [some m] => .ok m
  | _ =>
    match ms.mapM id with
    | some xs => .ok (.a xs)
    | none => .error .indexError

/-- Element of an ndarray at a multi-index (None on out-of-range or rank
mismatch). -/
def ndGet : Nd → List Nat → Option Nd
  | x, [] => some x
  | .a xs, j :: rest =>
    match xs.get? j with
    | some y => ndGet y rest
    | none => none
  | _, _ :: _ => none

/-- The shape of an ndarray, read along first elements (numpy arrays are never
ragged, so this is the shape for every faithful embedding of a real array). -/
def Nd.dims : Nd → List Nat
  | .i _ => []
  | .b _ => []
  | .a [] => [0]
  | .a (x :: xs) => (xs.length + 1) :: x.dims

/-- Numpy np.swapaxes(m, 0, -1) for a rank-3 array (the only rank a Conv2D inbound
mask can have: its input_shape[1:] is height x width x channels). -/
def swap0Last3 (m : Nd) : Except Err Nd :=
  match m.dims with
  | [d0, d1, d2] =>
    match (List.range d2).mapM (fun i =>
        ((List.range d1).mapM (fun j =>
          ((List.range d0).mapM (fun k => ndGet m [k, j, i])).map Nd.a)).map Nd.a) with
    | some planes => .ok (.a planes)
    | none => .error .indexError
  | _ => .error .indexError

/-- Slice assignment m[:k0, :k1, :]: keep the first k0 rows and first k1 columns; the trailing
full slice requires rank at least 3 (IndexError otherwise).  Conv2D
kernel_size always has two entries, so the index list built by the source has
exactly these three slices. -/
def convTrim (m : Nd) (k0 k1 : Nat) : Except Err Nd :=
  match m with
  | .a xs =>
    match (xs.take k0).mapM (fun row =>
      match row with
      | .a ys =>
        let cols := ys.take k1
        if cols.all (fun c => !c.isScalar) then some (Nd.a cols) else none
      | _ => none) with
    | some rows => .ok (.a rows)
    | none => .error .indexError
  | _ => .error .indexError

mutual
/-- Numpy np.repeat(m[..., np.newaxis], n, axis=-1): every scalar leaf becomes a new
last axis holding n copies of it. -/
def ndRepeatLast (n : Nat) : Nd → Nd
  | .a xs => .a (ndRepeatLastList n xs)
  | s => .a (List.replicate n s)

/-- The map of ndRepeatLast over a list of ndarrays. -/
def ndRepeatLastList (n : Nat) : List Nd → List Nd
  | [] => []
  | x :: xs => ndRepeatLast n x :: ndRepeatLastList n xs
end

/-- Boolean-mask selection w[mask] with mask of the same shape as w: the
row-major list of elements of w at the truthy positions of mask (numpy raises
on a shape mismatch). -/
def boolSelect (w mask : Nd) : Except Err (List Nd) :=
  if w.dims = mask.dims then
    .ok (((mask.flat.zip w.flat).filter (fun p => p.1.truthy)).map (fun p => p.2))
  else .error .indexError

/-- Assemble a list of n ndarrays from a flat element list, each via the given
builder, threading the unconsumed rest. -/
def buildList (bnd : List Nd → Option (Nd × List Nd)) :
    Nat → List Nd → Option (List Nd × List Nd)
  | 0, xs => some ([], xs)
  | n + 1, xs =>
    match bnd xs with
    | some (y, rest) =>
      match buildList bnd n rest with
      | some (ys, rest2) => some (y :: ys, rest2)
      | none => none
    | none => none

/-- Assemble one ndarray of the given shape from a flat row-major element list,
returning it with the unconsumed rest of the list. -/
def buildNd : List Nat → List Nd → Option (Nd × List Nd)
  | [], x :: rest => some (x, rest)
  | [], [] => none
  | d :: dims, xs =>
    match buildList (buildNd dims) d xs with
    | some (ys, rest) => some (.a ys, rest)
    | none => none

/-- Numpy np.reshape of a flat element list into a shape that may contain a single -1
entry (inferred from the element count); raises on any mismatch. -/
def npReshape (xs : List Nd) (shape : List Int) : Except Err Nd :=
  let n := xs.length
  let dimsOpt : Option (List Nat) :=
    if (shape.filter (fun d => d < 0)).length = 1 then
      let p := (shape.filter (fun d => 0 ≤ d)).foldl (fun acc d => acc * d.toNat) 1
      if p ≠ 0 ∧ p ∣ n then
        some (shape.map (fun d => if d < 0 then n / p else d.toNat))
      else none
    else if shape.all (fun d => 0 ≤ d) then
      if (shape.foldl (fun acc d => acc * d.toNat) 1) = n then
        some (shape.map (fun d => d.toNat))
      else none
    else none
  match dimsOpt with
  | none => .error .indexError
  | some dims =>
    match buildNd dims xs with
    | some (res, []) => .ok res
    | _ => .error .indexError

/-- The Conv2D branch of _apply_delete_mask, applied to the already-extracted
inbound mask m: trim m to the kernel window (after a channels_first axis swap
when configured), broadcast it over the output-channel axis of the kernel
weights, boolean-select the surviving kernel entries and reshape them with the
input-channel axis inferred. -/
def convApplyMask (layer : Layer) (m : Nd) : Except Err (Layer × Mask) :=
  match layer.kernelSize with
  | [k0, k1] =>
    let afterSwap :=
      if layer.dataFormat = some "channels_first" then swap0Last3 m else .ok m
    match afterSwap with
    | .error e => .error e
    | .ok m1 =>
      match convTrim m1 k0 k1 with
      | .error e => .error e
      | .ok m2 =>
        match layer.weights with
        | [] => .error .indexError
        | w0 :: rest =>
          match w0.dims.getLast? with
          | none => .error .indexError
          | some lastD =>
            let full := ndRepeatLast lastD m2
            match boolSelect w0 full with
            | .error e => .error e
            | .ok sel =>
              let sh := w0.dims
              if sh.length < 2 then .error .indexError
              else
                let newShape : List Int :=
                  (sh.map (fun d => (d : Int))).set (sh.length - 2) (-1)
                match npReshape sel newShape with
                | .error e => .error e
                | .ok w0new =>
                  .ok ({ layer with weights := w0new :: rest },
                       some (ndOnes layer.outputShape))
  | _ => .error .indexError

/-- Embedding of _apply_delete_mask from prune.py: apply the inbound delete masks to the
layer weights and compute the outbound delete mask.  If every inbound mask is
absent the layer is returned unchanged with an absent outbound mask; otherwise
the rule is dispatched on the layer class name. -/
def _apply_delete_mask (layer : Layer) (inboundDeleteMasks : List Mask) :
    Except Err (Layer × Mask) :=
  if inboundDeleteMasks.all (fun m => m.isNone) then
    .ok (layer, none)
  else
    match extractMask inboundDeleteMasks with
    | .error e => .error e
    | .ok m =>
      if layer.cls = "InputLayer" then .error .inputLayerReached
      else if layer.cls = "Dense" then
        match layer.weights with
        | [] => .error .indexError
        | w0 :: rest =>
          match selectRows w0 (npWhere0 m) with
          | .error e => .error e
          | .ok k =>
            .ok ({ layer with weights := k :: rest },
                 some (ndOnes layer.outputShape))
      else if layer.cls = "Flatten" then
        .ok (layer, some (ndFlatten m))
      else if layer.cls = "Conv2D" then
        convApplyMask layer m
      else .error .unsupportedOperationKind

/-- Identifier of one node instance, i.e. one inbound node of one layer
(`layer.inbound_nodes[node_index]` in Keras).  Every node instance owns exactly
one output tensor in the code under study. -/
abbrev NodeId := Nat

/-- A symbolic Keras tensor: either the output of an original-graph node
instance, or the result of calling a (possibly rebuilt) layer on a list of
input tensors.  Calling a layer on a single tensor (after
extract_if_single_element) is embedded as application to the one-element
list. -/
inductive Tensor where
  | orig : NodeId → Tensor
  | applied : Layer → List Tensor → Tensor

mutual
/-- Boolean equality on tensors. -/
def Tensor.beq : Tensor → Tensor → Bool
  | .orig n, .orig n2 => n == n2
  | .applied l xs, .applied l2 ys => l == l2 && Tensor.beqList xs ys
  | _, _ => false

/-- Boolean equality on lists of tensors. -/
def Tensor.beqList : List Tensor → List Tensor → Bool
  | [], [] => true
  | x :: xs, y :: ys => Tensor.beq x y && Tensor.beqList xs ys
  | _, _ => false
end

mutual
theorem Tensor.beq_eq_true_iff : ∀ x y : Tensor, Tensor.beq x y = true ↔ x = y
  | .orig _, .orig _ => by simp [Tensor.beq]
  | .orig _, .applied _ _ => by simp [Tensor.beq]
  | .applied _ _, .orig _ => by simp [Tensor.beq]
  | .applied l xs, .applied l2 ys => by
      simp [Tensor.beq, Tensor.beqList_eq_true_iff xs ys, beq_iff_eq]

theorem Tensor.beqList_eq_true_iff :
    ∀ xs ys : List Tensor, Tensor.beqList xs ys = true ↔ xs = ys
  | [], [] => by simp [Tensor.beqList]
  | [], _ :: _ => by simp [Tensor.beqList]
  | _ :: _, [] => by simp [Tensor.beqList]
  | x :: xs, y :: ys => by
      simp [Tensor.beqList, Tensor.beq_eq_true_iff x y, Tensor.beqList_eq_true_iff xs ys]
end

instance Tensor.decEq : DecidableEq Tensor :=
  fun x y => decidable_of_iff _ (Tensor.beq_eq_true_iff x y)

/-- One node instance: the layer it applies and the node instances producing
its inputs, in inbound order (node.inbound_layers zipped with
node.node_indices). -/
structure NodeData where
  layer : Layer
  inbound : List NodeId
deriving DecidableEq

/-- First-match association-list lookup (embeds Python dict lookup; updated
entries are prepended, so the newest binding for a key shadows older ones). -/
def alookup {κ α : Type} [DecidableEq κ] : List (κ × α) → κ → Option α
  | [], _ => none
  | (k, v) :: rest, k2 => if k = k2 then some v else alookup rest k2

/-- A Keras Model, embedded as the finite table of its node instances plus the
declared interface lists.  `inputShapes` records input_shape[1:] of each of the
model's own inbound (input) nodes, as read by delete_channels. -/
structure Model where
  nodes : List (NodeId × NodeData)
  inputs : List Tensor
  outputNodes : List NodeId
  layers : List Layer
  inputShapes : List (List Nat)
deriving DecidableEq

/-- The substitution map replace_tensors: original tensor to
(replacement tensor, outbound delete mask). -/
abbrev Subst := List (Tensor × (Tensor × Mask))

/-- The finished-node cache: node instance to its rebuilt
(output tensor, outbound delete mask). -/
abbrev Finished := List (NodeId × (Tensor × Mask))

/-- State threaded through the rebuild recursion: the finished-node cache
(mutated in place by the Python closures) plus, as pure instrumentation for the
cache-correctness claims, the ordered log of node instances whose rebuild
computation (mask application and layer re-application) was actually
performed. -/
structure RState where
  finished : Finished
  computed : List NodeId
deriving DecidableEq

/-- The read-only environment captured by the _rebuild_rec closure. -/
structure REnv where
  nodes : List (NodeId × NodeData)
  modelInputs : List Tensor
  inputMasks : List Mask
  subst : Subst
deriving DecidableEq

/-- A node-rebuilding procedure folded left-to-right over a list of node
instances, collecting the (tensor, mask) pairs in order and threading the
state (the zip(*[...]) comprehension in the source). -/
def runList (rec : NodeId → RState → Except Err ((Tensor × Mask) × RState)) :
    List NodeId → RState → Except Err (List (Tensor × Mask) × RState)
  | [], st => .ok ([], st)
  | n :: rest, st =>
    match rec n st with
    | .error e => .error e
    | .ok (r, st1) =>
      match runList rec rest st1 with
      | .error e => .error e
      | .ok (rs, st2) => .ok (r :: rs, st2)

/-- Embedding of _rebuild_rec from rebuild_submodel, with explicit state and fuel: rebuild
the given node instance and every node it depends on.  Branch order is the
source's: substitution map first, then the finished-node cache, then the
model-input base case, then the recursive case (which raises on a node with no
inbound layers, stores its result in the cache and logs the computation). -/
def rebuildRec (env : REnv) : Nat → NodeId → RState →
    Except Err ((Tensor × Mask) × RState)
  | 0, _, _ => .error .outOfFuel
  | fuel + 1, n, st =>
    match alookup env.nodes n with
    | none => .error .indexError
    | some nd =>
      match alookup env.subst (Tensor.orig n) with
      | some v => .ok (v, st)
      | none =>
        match alookup st.finished n with
        | some v => .ok (v, st)
        | none =>
          if Tensor.orig n ∈ env.modelInputs then
            match env.inputMasks.get?
                (env.modelInputs.indexOf (Tensor.orig n)) with
            | some mk => .ok ((Tensor.orig n, mk), st)
            | none => .error .indexError
          else if nd.inbound.isEmpty then .error .danglingOperation
          else
            match runList (rebuildRec env fuel) nd.inbound st with
            | .error e => .error e
            | .ok (ins, st1) =>
              match _apply_delete_mask nd.layer (ins.map (fun p => p.2)) with
              | .error e => .error e
              | .ok (newLayer, outMask) =>
                .ok ((Tensor.applied newLayer (ins.map (fun p => p.1)),
                      outMask),
                     ⟨(n, (Tensor.applied newLayer (ins.map (fun p => p.1)),
                           outMask)) :: st1.finished,
                      st1.computed ++ [n]⟩)

/-- Embedding of rebuildRec folded over a list of node instances at a given fuel. -/
def rebuildList (env : REnv) (fuel : Nat) :
    List NodeId → RState → Except Err (List (Tensor × Mask) × RState) :=
  runList (rebuildRec env fuel)

/-- Embedding of rebuild_submodel from prune.py: rebuild the submodel up to each output node
instance.  An empty/absent input-mask list defaults to one absent mask per
model input; an empty output list raises (zip(*[]) unpacking).  The fuel
model.nodes.length + 1 suffices for any acyclic graph, whose rebuild recursion
depth is bounded by the node count. -/
def rebuild_submodel (model : Model) (outputNodes : List NodeId)
    (replaceTensors : Subst) (finishedNodes : Finished)
    (inputDeleteMasks : List Mask) :
    Except Err (List (Tensor × Mask) × RState) :=
  let masks :=
    if inputDeleteMasks.isEmpty then model.inputs.map (fun _ => none)
    else inputDeleteMasks
  if outputNodes.isEmpty then .error .danglingOperation
  else
    rebuildList ⟨model.nodes, model.inputs, masks, replaceTensors⟩
      (model.nodes.length + 1) outputNodes ⟨finishedNodes, []⟩

mutual
/-- Broadcast assignment of False over a whole slice: every scalar element
becomes False, the shape is kept. -/
def ndAllFalse : Nd → Nd
  | .a xs => .a (ndAllFalseList xs)
  | _ => .b false

/-- The map of ndAllFalse over a list of ndarrays. -/
def ndAllFalseList : List Nd → List Nd
  | [] => []
  | x :: xs => ndAllFalse x :: ndAllFalseList xs
end

mutual
/-- Slice assignment m[..., idxs] = False: set the listed positions of the last axis to False
for every leading position (IndexError on an out-of-range index or a 0-d
target). -/
def setFalseLast (idxs : List Nat) : Nd → Except Err Nd
  | .a xs =>
    if xs.all Nd.isScalar then
      if idxs.all (fun j => j < xs.length) then
        .ok (.a (xs.enum.map (fun p =>
          if idxs.contains p.1 then Nd.b false else p.2)))
      else .error .indexError
    else
      match setFalseLastList idxs xs with
      | .ok ys => .ok (.a ys)
      | .error e => .error e
  | _ => .error .indexError

/-- The map of setFalseLast over a list of ndarrays. -/
def setFalseLastList (idxs : List Nat) : List Nd → Except Err (List Nd)
  | [] => .ok []
  | x :: xs =>
    match setFalseLast idxs x with
    | .error e => .error e
    | .ok y =>
      match setFalseLastList idxs xs with
      | .error e => .error e
      | .ok ys => .ok (y :: ys)
end

/-- Slice assignment m[idxs, ...] = False: set the listed first-axis slices entirely to False
(IndexError on an out-of-range index or a 0-d target). -/
def setFalseFirst (idxs : List Nat) : Nd → Except Err Nd
  | .a xs =>
    if idxs.all (fun j => j < xs.length) then
      .ok (.a (xs.enum.map (fun p =>
        if idxs.contains p.1 then ndAllFalse p.2 else p.2)))
    else .error .indexError
  | _ => .error .indexError

/-- Embedding of _make_delete_mask from prune.py: an all-true boolean ndarray shaped like
the layer's output (batch dimension excluded) with the given channel indices
set to False along the channel axis (axis 0 under channels_first, the last
axis otherwise). -/
def _make_delete_mask (layer : Layer) (channelIndices : List Nat) :
    Except Err Nd :=
  let base := ndOnes layer.outputShape
  if layer.dataFormat = some "channels_first" then
    setFalseFirst channelIndices base
  else
    setFalseLast channelIndices base

mutual
/-- Numpy np.delete(w, idxs, axis=-1): remove the listed positions (as a set; each
index is removed once even if repeated) from the last axis of w, keeping the
remaining entries in order (IndexError on an out-of-range index or a 0-d
target). -/
def ndDeleteLast (idxs : List Nat) : Nd → Except Err Nd
  | .a xs =>
    if xs.all Nd.isScalar then
      if idxs.all (fun j => j < xs.length) then
        .ok (.a (((List.range xs.length).filter
            (fun j => !(idxs.contains j))).map (fun j => xs.getD j (.i 0))))
      else .error .indexError
    else
      match ndDeleteLastList idxs xs with
      | .ok ys => .ok (.a ys)
      | .error e => .error e
  | _ => .error .indexError

/-- The map of ndDeleteLast over a list of ndarrays. -/
def ndDeleteLastList (idxs : List Nat) : List Nd → Except Err (List Nd)
  | [] => .ok []
  | x :: xs =>
    match ndDeleteLast idxs x with
    | .error e => .error e
    | .ok y =>
      match ndDeleteLastList idxs xs with
      | .error e => .error e
      | .ok ys => .ok (y :: ys)
end

/-- Embedding of _delete_channel_weights from prune.py: fail unless the layer has a units or
filters config entry; fail if any requested channel index exceeds that count;
otherwise decrement the count by the number of requested indices (duplicates
included) and np.delete the indices from the last axis of every weight
tensor. -/
def _delete_channel_weights (layer : Layer) (channelIndices : List Nat) :
    Except Err Layer :=
  let channelCount : Except Err (Bool × Int) :=
    match layer.units with
    | some u => .ok (true, u)
    | none =>
      match layer.filters with
      | some f => .ok (false, f)
      | none => .error .missingChannelDimension
  match channelCount with
  | .error e => .error e
  | .ok (isUnits, cnt) =>
    if channelIndices.any (fun j => (j : Int) + 1 > cnt) then
      .error .channelIndexOutOfRange
    else
      match ndDeleteLastList channelIndices layer.weights with
      | .error e => .error e
      | .ok ws =>
        let newCount := cnt - channelIndices.length
        if isUnits then
          .ok { layer with units := some newCount, weights := ws }
        else
          .ok { layer with filters := some newCount, weights := ws }

/-- Modelled from the spec: clean_copy from kerasprune.model_utils is not under
src/.  Per sections 4.4 and 5 it deep-copies the model so the edit shares no
mutable state with the caller's graph; object identity is not observable in
this pure-value embedding, so the copy is the identity on model values. -/
def clean_copy (model : Model) : Model := model

/-- Keras Model.get_layer(name): the first layer with the given config name, or
a ValueError when there is none. -/
def getLayer (model : Model) (name : String) : Except Err Layer :=
  match model.layers.find? (fun l => l.name == name) with
  | some l => .ok l
  | none => .error .noSuchLayer

/-- Keras layer.inbound_nodes restricted to a model: the node instances of the model
whose layer is the given one, in the model's node order (which embeds the
creation order Keras records on the layer object). -/
def layerNodes (model : Model) (layer : Layer) : List NodeId :=
  (model.nodes.filter (fun p => p.2.layer == layer)).map (fun p => p.1)

/-- Modelled from the spec: check_nodes_in_model (kerasprune.model_utils) and
bool_to_index (kerasprune.utils) are not under src/.  Per section 4.4 step 2,
when the node selector is omitted the targets are every node instance of the
target operation present in the graph: all indices into the layer's node
list. -/
def defaultNodeIndices (model : Model) (layer : Layer) : List Nat :=
  List.range (layerNodes model layer).length

/-- The node instances that consume the output of a node instance. -/
def consumersOf (model : Model) (n : NodeId) : List NodeId :=
  (model.nodes.filter (fun p => p.2.inbound.contains n)).map (fun p => p.1)

/-- Modelled from the spec: get_node_depth from kerasprune.model_utils is not
under src/.  Per section 4.1, depth is the length of the longest path from the
node instance to any declared graph output, 0 for a declared output;
fuel-bounded walk towards the outputs. -/
def get_node_depth (model : Model) : Nat → NodeId → Nat
  | 0, _ => 0
  | fuel + 1, n =>
    if n ∈ model.outputNodes then 0
    else
      (consumersOf model n).foldl
        (fun acc c => max acc (get_node_depth model fuel c + 1)) 0

/-- The key-comparison relation used to sort (depth, index) pairs by depth. -/
def keyLe (p q : Nat × Nat) : Prop := p.1 ≤ q.1

instance keyLeDecidable : DecidableRel keyLe := fun p q => Nat.decLe p.1 q.1

instance keyLeTotal : IsTotal (Nat × Nat) keyLe := ⟨fun p q => Nat.le_total p.1 q.1⟩

instance keyLeTrans : IsTrans (Nat × Nat) keyLe :=
  ⟨fun _ _ _ h1 h2 => Nat.le_trans h1 h2⟩

/-- Modelled from the spec: sort_x_by_y from kerasprune.utils is not under
src/.  It returns xs stably sorted by ascending key ys (section 4.1: the
orchestrator then reverses this to process largest depth first). -/
def sort_x_by_y (xs ys : List Nat) : List Nat :=
  ((ys.zip xs).insertionSort keyLe).map (fun p => p.2)

/-- The order in which reused_core_logic processes the selected node indices:
reversed(sort_x_by_y(node_indices, node_depths)), i.e. depth-sorted ascending
and then reversed, so the deepest instance comes first. -/
def processingOrder (idxs depths : List Nat) : List Nat :=
  (sort_x_by_y idxs depths).reverse

/-- The new Keras Model built by Model(model.inputs, new_outputs): the rebuilt
graph is determined by the declared input tensors and the symbolic output
tensor expressions. -/
structure NewModel where
  inputs : List Tensor
  outputs : List Tensor
deriving DecidableEq

/-- Modelled from the spec: the final clean_copy of the newly built model
(section 4.4 step 7); identity on values, as for clean_copy. -/
def clean_copy_new (m : NewModel) : NewModel := m

/-- Truthiness of the copy argument (Python: if copy:).  None and False are
falsy; the argument type is Option Bool because delete_channels defaults the
flag to None while the other entry points default it to True. -/
def copyTruthy : Option Bool → Bool
  | some b => b
  | none => false

/-- Python dict.update on an association list: the new entries are prepended
(newest first) so they shadow older bindings of the same key. -/
def dictUpdate {κ α : Type} (d upd : List (κ × α)) : List (κ × α) :=
  upd.reverse ++ d

/-- Apply a fallible function to every element, short-circuiting on failure
(the list comprehension over layer.inbound_nodes lookups, which can raise
IndexError). -/
def optionMap {α β : Type} (f : α → Option β) : List α → Option (List β)
  | [] => some []
  | a :: l =>
    match f a with
    | none => none
    | some b =>
      match optionMap f l with
      | none => none
      | some bs => some (b :: bs)

/-- The per-target-node loop of reused_core_logic: for each node index in
processing order, rebuild the submodel up to the node's inbound layers, then
let the modifier produce substitution entries, accumulating the substitution
map and the finished-node cache. -/
def coreLoop (model : Model) (layer : Layer)
    (modifier : Model → Layer → Nat → List Tensor → Except Err Subst)
    (inputDeleteMasks : List Mask) :
    List Nat → Subst → Finished → Except Err (Subst × Finished)
  | [], rt, fin => .ok (rt, fin)
  | i :: rest, rt, fin =>
    match (layerNodes model layer).get? i with
    | none => .error .indexError
    | some nid =>
      match alookup model.nodes nid with
      | none => .error .indexError
      | some nd =>
        match rebuild_submodel model nd.inbound rt fin inputDeleteMasks with
        | .error e => .error e
        | .ok (outs, st) =>
          match modifier model layer i (outs.map (fun p => p.1)) with
          | .error e => .error e
          | .ok upd =>
            coreLoop model layer modifier inputDeleteMasks rest
              (dictUpdate rt upd) st.finished

/-- Embedding of reused_core_logic from prune.py: validate that the layer is in the model,
default the node selection to all of the layer's nodes, optionally clean-copy
the model (re-resolving the layer by name), order the selected node indices by
descending node depth, run the per-node loop, rebuild the whole model's
outputs under the accumulated substitutions, and optionally clean-copy the
result. -/
def reused_core_logic (model : Model) (layer : Layer)
    (modifier : Model → Layer → Nat → List Tensor → Except Err Subst)
    (nodeIndices : List Nat) (copy : Option Bool)
    (inputDeleteMasks : List Mask) : Except Err NewModel :=
  if layer ∉ model.layers then .error .operationNotFound
  else
    let idxs :=
      if nodeIndices.isEmpty then defaultNodeIndices model layer
      else nodeIndices
    let copied : Except Err (Model × Layer) :=
      if copyTruthy copy then
        match getLayer (clean_copy model) layer.name with
        | .ok l2 => .ok (clean_copy model, l2)
        | .error e => .error e
      else .ok (model, layer)
    match copied with
    | .error e => .error e
    | .ok (model2, layer2) =>
      match optionMap (fun j => (layerNodes model2 layer2).get? j) idxs with
      | none => .error .indexError
      | some nids =>
        let depths := nids.map (get_node_depth model2 (model2.nodes.length + 1))
        let order := processingOrder idxs depths
        match coreLoop model2 layer2 modifier inputDeleteMasks order [] [] with
        | .error e => .error e
        | .ok (replaceT, finishedN) =>
          match rebuild_submodel model2 model2.outputNodes replaceT finishedN
              inputDeleteMasks with
          | .error e => .error e
          | .ok (outs, _) =>
            let nm : NewModel := ⟨model2.inputs, outs.map (fun p => p.1)⟩
            if copyTruthy copy then .ok (clean_copy_new nm) else .ok nm

/-- The _insert_layer callback: reject a node with two or more inbound layers,
apply the new layer to the (single) rebuilt input, and substitute the original
inbound producer's output tensor. -/
def insertModifier (newLayer : Layer) (model : Model) (layer : Layer) (i : Nat)
    (inputs : List Tensor) : Except Err Subst :=
  if inputs.length ≥ 2 then .error .multiInputUnsupported
  else
    let newOutput := Tensor.applied newLayer inputs
    match (layerNodes model layer).get? i with
    | none => .error .indexError
    | some nid =>
      match alookup model.nodes nid with
      | none => .error .indexError
      | some nd =>
        match nd.inbound.get? 0 with
        | none => .error .indexError
        | some firstIn => .ok [(Tensor.orig firstIn, (newOutput, none))]

/-- The _replace_layer callback: apply the replacement layer to the rebuilt
inputs and substitute the target node's own output tensor.  Note: unlike
_insert_layer and _delete_layer, the source performs no multiple-inbound-layer
check here. -/
def replaceModifier (newLayer : Layer) (model : Model) (layer : Layer) (i : Nat)
    (inputs : List Tensor) : Except Err Subst :=
  let newOutput := Tensor.applied newLayer inputs
  match (layerNodes model layer).get? i with
  | none => .error .indexError
  | some nid => .ok [(Tensor.orig nid, (newOutput, none))]

/-- The _delete_layer callback: reject a node with two or more inbound layers
and substitute the target node's output tensor with its (single) rebuilt input
tensor.  The empty-input case cannot be reached: rebuild_submodel raises on an
empty frontier first. -/
def deleteLayerModifier (model : Model) (layer : Layer) (i : Nat)
    (inputs : List Tensor) : Except Err Subst :=
  if inputs.length ≥ 2 then .error .multiInputUnsupported
  else
    match inputs.get? 0 with
    | none => .error .indexError
    | some t =>
      match (layerNodes model layer).get? i with
      | none => .error .indexError
      | some nid => .ok [(Tensor.orig nid, (t, none))]

/-- The _delete_inbound_weights callback of delete_channels: apply the trimmed
layer to the rebuilt inputs and substitute the target node's output tensor
together with the new delete mask. -/
def deleteInboundWeightsModifier (newLayer : Layer) (newDeleteMask : Nd)
    (model : Model) (layer : Layer) (i : Nat) (inputs : List Tensor) :
    Except Err Subst :=
  let newOutput := Tensor.applied newLayer inputs
  match (layerNodes model layer).get? i with
  | none => .error .indexError
  | some nid => .ok [(Tensor.orig nid, (newOutput, some newDeleteMask))]

/-- Default of the copy argument of insert_layer (Python: copy=True). -/
def insert_layer_copy_default : Option Bool := some true

/-- Default of the copy argument of replace_layer (Python: copy=True). -/
def replace_layer_copy_default : Option Bool := some true

/-- Default of the copy argument of delete_layer (Python: copy=True). -/
def delete_layer_copy_default : Option Bool := some true

/-- Default of the copy argument of delete_channels (Python: copy=None). -/
def delete_channels_copy_default : Option Bool := none

/-- Embedding of insert_layer from prune.py. -/
def insert_layer (model : Model) (layer : Layer) (newLayer : Layer)
    (nodeIndices : List Nat := [])
    (copy : Option Bool := insert_layer_copy_default) : Except Err NewModel :=
  reused_core_logic model layer (insertModifier newLayer) nodeIndices copy []

/-- Embedding of replace_layer from prune.py. -/
def replace_layer (model : Model) (layer : Layer) (newLayer : Layer)
    (nodeIndices : List Nat := [])
    (copy : Option Bool := replace_layer_copy_default) : Except Err NewModel :=
  reused_core_logic model layer (replaceModifier newLayer) nodeIndices copy []

/-- Embedding of delete_layer from prune.py. -/
def delete_layer (model : Model) (layer : Layer)
    (nodeIndices : List Nat := [])
    (copy : Option Bool := delete_layer_copy_default) : Except Err NewModel :=
  reused_core_logic model layer deleteLayerModifier nodeIndices copy []

/-- Embedding of delete_channels from prune.py: build the trimmed layer and the delete mask
(both can fail) before any validation of the layer against the model, then run
the shared core logic with all-true input delete masks. -/
def delete_channels (model : Model) (layer : Layer) (channelIndices : List Nat)
    (nodeIndices : List Nat := [])
    (copy : Option Bool := delete_channels_copy_default) : Except Err NewModel :=
  match _delete_channel_weights layer channelIndices with
  | .error e => .error e
  | .ok newLayer =>
    match _make_delete_mask layer channelIndices with
    | .error e => .error e
    | .ok newDeleteMask =>
      let inputDeleteMasks := model.inputShapes.map (fun s => some (ndOnes s))
      reused_core_logic model layer
        (deleteInboundWeightsModifier newLayer newDeleteMask)
        nodeIndices copy inputDeleteMasks

/-- Invariant of the rebuild state: the computation log holds no duplicates and
every logged node is in the finished cache. -/
def goodState (st : RState) : Prop :=
  st.computed.Nodup ∧ ∀ m ∈ st.computed, (alookup st.finished m).isSome = true

/-- What one rebuildRec call on node n does to the state: the invariant is
preserved, the finished cache and the computation log only grow, every newly
logged node was not finished before, and every newly finished node has rank at
most that of n. -/
def recStep (rank : NodeId → Nat) (n : NodeId) (st st2 : RState) : Prop :=
  goodState st2 ∧
  (∀ m : NodeId, (alookup st.finished m).isSome = true →
    (alookup st2.finished m).isSome = true) ∧
  (∀ m ∈ st.computed, m ∈ st2.computed) ∧
  (∀ m ∈ st2.computed, m ∈ st.computed ∨ alookup st.finished m = none) ∧
  (∀ m : NodeId, (alookup st2.finished m).isSome = true →
    (alookup st.finished m).isSome = true ∨ rank m ≤ rank n)

/-- What one rebuildList call on the nodes ns does to the state. -/
def listStep (rank : NodeId → Nat) (ns : List NodeId) (st st2 : RState) :
    Prop :=
  goodState st2 ∧
  (∀ m : NodeId, (alookup st.finished m).isSome = true →
    (alookup st2.finished m).isSome = true) ∧
  (∀ m ∈ st.computed, m ∈ st2.computed) ∧
  (∀ m ∈ st2.computed, m ∈ st.computed ∨ alookup st.finished m = none) ∧
  (∀ m : NodeId, (alookup st2.finished m).isSome = true →
    (alookup st.finished m).isSome = true ∨ ∃ k ∈ ns, rank m ≤ rank k)

/-! ### Concrete models used to instantiate the theorems -/

/-- A concrete Dense layer: kernel 3 x 2, bias 2, three input units, two
output units. -/
def cDense : Layer :=
  { cls := "Dense", name := "d1", units := some 2,
    weights := [.a [.a [.i 1, .i 2], .a [.i 3, .i 4], .a [.i 5, .i 6]],
                .a [.i 7, .i 8]],
    outputShape := [2], inputShape := [3] }

/-- An inbound delete mask for cDense deleting its middle input unit. -/
def cMask : Nd := .a [.b true, .b false, .b true]

/-- Layer cDense after rows 0 and 2 of the kernel are kept (row 1 deleted); the bias
is untouched. -/
def cDenseOut : Layer :=
  { cls := "Dense", name := "d1", units := some 2,
    weights := [.a [.a [.i 1, .i 2], .a [.i 5, .i 6]], .a [.i 7, .i 8]],
    outputShape := [2], inputShape := [3] }

/-- A concrete input layer. -/
def cInLayer : Layer := { cls := "InputLayer", name := "in0" }

/-- Weightless layer a of the diamond model. -/
def cLayerA : Layer := { cls := "Dense", name := "la" }

/-- Weightless layer b of the diamond model. -/
def cLayerB : Layer := { cls := "Dense", name := "lb" }

/-- Weightless layer c of the diamond model. -/
def cLayerC : Layer := { cls := "Dense", name := "lc" }

/-- A diamond-shaped model: input 0 feeds a (node 1), whose output feeds both
b (node 2) and c (node 3); both b and c are declared outputs, so node 1 is a
shared ancestor reachable twice from the frontier. -/
def cDiamond : Model :=
  { nodes := [(0, ⟨cInLayer, []⟩), (1, ⟨cLayerA, [0]⟩),
              (2, ⟨cLayerB, [1]⟩), (3, ⟨cLayerC, [1]⟩)],
    inputs := [.orig 0], outputNodes := [2, 3],
    layers := [cInLayer, cLayerA, cLayerB, cLayerC],
    inputShapes := [[3]] }

/-- The rank function witnessing that cDiamond is acyclic. -/
def cRank : NodeId → Nat := fun n => n

/-- The result of rebuilding cDiamond from its two outputs with no
substitutions: node 1 is computed once and its output shared. -/
def cDiamondRes : List (Tensor × Mask) × RState :=
  ([(.applied cLayerB [.applied cLayerA [.orig 0]], none),
    (.applied cLayerC [.applied cLayerA [.orig 0]], none)],
   ⟨[(3, (.applied cLayerC [.applied cLayerA [.orig 0]], none)),
     (2, (.applied cLayerB [.applied cLayerA [.orig 0]], none)),
     (1, (.applied cLayerA [.orig 0], none))],
    [1, 2, 3]⟩)

/-- First input layer of the two-input model. -/
def cIn1 : Layer := { cls := "InputLayer", name := "in1" }

/-- Second input layer of the two-input model. -/
def cIn2 : Layer := { cls := "InputLayer", name := "in2" }

/-- A two-input merge-style layer. -/
def cAdd : Layer := { cls := "Add", name := "add" }

/-- A replacement layer used by the edit entry points in the witnesses. -/
def cNew : Layer := { cls := "Dense", name := "new" }

/-- A model whose layer cAdd is applied at a node instance (node 2) with two
inbound edges. -/
def cTwoIn : Model :=
  { nodes := [(0, ⟨cIn1, []⟩), (1, ⟨cIn2, []⟩), (2, ⟨cAdd, [0, 1]⟩)],
    inputs := [.orig 0, .orig 1], outputNodes := [2],
    layers := [cIn1, cIn2, cAdd],
    inputShapes := [[3], [3]] }

/-- The rebuilt inbound pairs of cTwoIn's node 2: both inputs are model inputs
with absent masks, and the state is untouched. -/
def cTwoInRes : List (Tensor × Mask) × RState :=
  ([(.orig 0, none), (.orig 1, none)], ⟨[], []⟩)

/-- A Dense layer with five output units used by the delete_channels
theorems. -/
def cFive : Layer :=
  { cls := "Dense", name := "five", units := some 5,
    weights := [.a [.a [.i 1, .i 2, .i 3, .i 4, .i 5]],
                .a [.i 10, .i 20, .i 30, .i 40, .i 50]],
    outputShape := [5], inputShape := [1] }

/-- Layer cFive after delete_channels' weight trimming with the duplicated index
list [1, 1]: the declared units drop by 2 (to 3), each weight tensor loses
only the single distinct index 1 along its last axis. -/
def cFiveDup : Layer :=
  { cls := "Dense", name := "five", units := some 3,
    weights := [.a [.a [.i 1, .i 3, .i 4, .i 5]],
                .a [.i 10, .i 30, .i 40, .i 50]],
    outputShape := [5], inputShape := [1] }

/-- A model applying cFive to the single input: in (node 0) feeds cFive
(node 1). -/
def cFiveModel : Model :=
  { nodes := [(0, ⟨cInLayer, []⟩), (1, ⟨cFive, [0]⟩)],
    inputs := [.orig 0], outputNodes := [1],
    layers := [cInLayer, cFive],
    inputShapes := [[1]] }

/-- A layer that appears in no model, used for the order-of-validation
theorem. -/
def cOrphan : Layer :=
  { cls := "Dense", name := "orphan", units := some 5,
    weights := [.a [.a [.i 1, .i 2, .i 3, .i 4, .i 5]],
                .a [.i 10, .i 20, .i 30, .i 40, .i 50]],
    outputShape := [5], inputShape := [1] }

/-- An environment in which node 7's output tensor is simultaneously a key of
the substitution map, a finished-cache entry (with a different value), and a
declared model input (with a mask): the substitution must win. -/
def cSubstEnv : REnv :=
  { nodes := [(7, ⟨cLayerA, [0]⟩)], modelInputs := [.orig 7],
    inputMasks := [some cMask], subst := [(.orig 7, (.orig 99, none))] }

/-- A state in which node 7 is already finished with a value different from
the substitution's. -/
def cSubstSt : RState := { finished := [(7, (.orig 55, none))], computed := [] }

/-! ### Helper lemmas -/

theorem alookup_mem {κ α : Type} [DecidableEq κ] :
    ∀ (l : List (κ × α)) (k : κ) (v : α), alookup l k = some v → (k, v) ∈ l := by
  intro l
  induction l with
  | nil => intro k v h; simp [alookup] at h
  | cons p rest ih =>
    intro k v h
    obtain ⟨pk, pv⟩ := p
    by_cases hk : pk = k
    · subst hk
      simp [alookup] at h
      simp [h]
    · simp [alookup, hk] at h
      exact List.mem_cons_of_mem _ (ih k v h)

theorem runList_length
    (rec : NodeId → RState → Except Err ((Tensor × Mask) × RState)) :
    ∀ (ns : List NodeId) (st : RState) (rs : List (Tensor × Mask))
      (st2 : RState), runList rec ns st = .ok (rs, st2) →
      rs.length = ns.length := by
  intro ns
  induction ns with
  | nil =>
    intro st rs st2 h
    simp only [runList] at h
    cases h
    rfl
  | cons n rest ih =>
    intro st rs st2 h
    simp only [runList] at h
    cases h1 : rec n st with
    | error e => simp only [h1] at h; cases h
    | ok p =>
      obtain ⟨rp, st1⟩ := p
      simp only [h1] at h
      cases h2 : runList rec rest st1 with
      | error e => simp only [h2] at h; cases h
      | ok q =>
        obtain ⟨rs2, stF⟩ := q
        simp only [h2] at h
        cases h
        simp only [List.length_cons]
        exact congrArg Nat.succ (ih _ _ _ h2)

theorem alookup_cons {κ α : Type} [DecidableEq κ] (k m : κ) (v : α)
    (l : List (κ × α)) :
    alookup ((k, v) :: l) m = if k = m then some v else alookup l m := rfl

theorem recStep_refl (rank : NodeId → Nat) (n : NodeId) (st : RState)
    (hg : goodState st) : recStep rank n st st :=
  ⟨hg, fun _ hm => hm, fun _ hm => hm, fun _ hm => Or.inl hm,
   fun _ hm => Or.inl hm⟩

theorem listStep_refl (rank : NodeId → Nat) (ns : List NodeId) (st : RState)
    (hg : goodState st) : listStep rank ns st st :=
  ⟨hg, fun _ hm => hm, fun _ hm => hm, fun _ hm => Or.inl hm,
   fun _ hm => Or.inl hm⟩

theorem runList_inv
    (rec : NodeId → RState → Except Err ((Tensor × Mask) × RState))
    (rank : NodeId → Nat)
    (hrec : ∀ (n : NodeId) (st : RState) (r : Tensor × Mask) (st2 : RState),
      rec n st = .ok (r, st2) → goodState st → recStep rank n st st2) :
    ∀ (ns : List NodeId) (st : RState) (rs : List (Tensor × Mask))
      (st2 : RState), runList rec ns st = .ok (rs, st2) → goodState st →
      listStep rank ns st st2 := by
  intro ns
  induction ns with
  | nil =>
    intro st rs st2 h hg
    simp only [runList] at h
    cases h
    exact listStep_refl rank [] st hg
  | cons a l ihl =>
    intro st rs st2 h hg
    simp only [runList] at h
    cases h1 : rec a st with
    | error e => simp only [h1] at h; cases h
    | ok p =>
      obtain ⟨rp, st1⟩ := p
      simp only [h1] at h
      cases h2 : runList rec l st1 with
      | error e => simp only [h2] at h; cases h
      | ok q =>
        obtain ⟨rs2, stF⟩ := q
        simp only [h2] at h
        cases h
        obtain ⟨hg1, hkeep1, hcomp1, hfresh1, hb1⟩ := hrec a st rp st1 h1 hg
        obtain ⟨hg2, hkeep2, hcomp2, hfresh2, hb2⟩ := ihl _ _ _ h2 hg1
        refine ⟨hg2, ?_, ?_, ?_, ?_⟩
        · intro m hm
          exact hkeep2 m (hkeep1 m hm)
        · intro m hm
          exact hcomp2 m (hcomp1 m hm)
        · intro m hm
          rcases hfresh2 m hm with hm1 | hm1
          · exact hfresh1 m hm1
          · cases hq : alookup st.finished m with
            | none => exact Or.inr rfl
            | some v =>
              have hq2 : (alookup st.finished m).isSome = true := by
                rw [hq]; rfl
              have hq3 := hkeep1 m hq2
              rw [hm1] at hq3
              simp at hq3
        · intro m hm
          rcases hb2 m hm with hm1 | ⟨k, hk, hle⟩
          · rcases hb1 m hm1 with hm2 | hle
            · exact Or.inl hm2
            · exact Or.inr ⟨a, List.mem_cons_self a l, hle⟩
          · exact Or.inr ⟨k, List.mem_cons_of_mem a hk, hle⟩

theorem rebuild_inv (env : REnv) (rank : NodeId → Nat)
    (hr : ∀ (n : NodeId) (nd : NodeData), alookup env.nodes n = some nd →
      ∀ m ∈ nd.inbound, rank m < rank n) :
    ∀ (fuel : Nat) (n : NodeId) (st : RState) (r : Tensor × Mask)
      (st2 : RState),
      rebuildRec env fuel n st = .ok (r, st2) → goodState st →
      recStep rank n st st2 := by
  intro fuel
  induction fuel with
  | zero =>
    intro n st r st2 h
    simp only [rebuildRec] at h
    cases h
  | succ fuel ih =>
    intro n st r st2 h hg
    simp only [rebuildRec] at h
    cases hn : alookup env.nodes n with
    | none => simp only [hn] at h; cases h
    | some nd =>
      simp only [hn] at h
      cases hs : alookup env.subst (Tensor.orig n) with
      | some v =>
        simp only [hs] at h
        cases h
        exact recStep_refl rank n st hg
      | none =>
        simp only [hs] at h
        cases hf : alookup st.finished n with
        | some v =>
          simp only [hf] at h
          cases h
          exact recStep_refl rank n st hg
        | none =>
          simp only [hf] at h
          by_cases hin : Tensor.orig n ∈ env.modelInputs
          · simp only [if_pos hin] at h
            cases hm : env.inputMasks.get?
                (env.modelInputs.indexOf (Tensor.orig n)) with
            | none => simp only [hm] at h; cases h
            | some mk =>
              simp only [hm] at h
              cases h
              exact recStep_refl rank n st hg
          · simp only [if_neg hin] at h
            by_cases hemp : nd.inbound.isEmpty
            · simp only [if_pos hemp] at h; cases h
            · simp only [if_neg hemp] at h
              cases hl : runList (rebuildRec env fuel) nd.inbound st with
              | error e => simp only [hl] at h; cases h
              | ok p =>
                obtain ⟨ins, st1⟩ := p
                simp only [hl] at h
                cases ha : _apply_delete_mask nd.layer
                    (ins.map (fun q => q.2)) with
                | error e => simp only [ha] at h; cases h
                | ok q =>
                  obtain ⟨nl, om⟩ := q
                  simp only [ha] at h
                  cases h
                  obtain ⟨hg1, hkeep1, hcomp1, hfresh1, hb1⟩ :=
                    runList_inv (rebuildRec env fuel) rank ih
                      nd.inbound st ins st1 hl hg
                  have hrank : ∀ m ∈ nd.inbound, rank m < rank n := hr n nd hn
                  have hnf1 : alookup st1.finished n = none := by
                    cases hq : alookup st1.finished n with
                    | none => rfl
                    | some v2 =>
                      have hq2 : (alookup st1.finished n).isSome = true := by
                        rw [hq]; rfl
                      rcases hb1 n hq2 with hold | ⟨k, hk, hle⟩
                      · rw [hf] at hold; simp at hold
                      · exact absurd hle (not_le.mpr (hrank k hk))
                  have hnc1 : n ∉ st1.computed := by
                    intro hc
                    have hq2 := hg1.2 n hc
                    rw [hnf1] at hq2
                    simp at hq2
                  refine ⟨⟨?_, ?_⟩, ?_, ?_, ?_, ?_⟩
                  · rw [List.nodup_append]
                    refine ⟨hg1.1, List.nodup_singleton n, ?_⟩
                    intro a ha2 hb2
                    rw [List.mem_singleton] at hb2
                    exact hnc1 (hb2 ▸ ha2)
                  · intro m hm
                    rw [List.mem_append, List.mem_singleton] at hm
                    rw [alookup_cons]
                    rcases hm with hm | hm
                    · split
                      · rfl
                      · exact hg1.2 m hm
                    · rw [if_pos (hm ▸ rfl)]; rfl
                  · intro m hm
                    rw [alookup_cons]
                    split
                    · rfl
                    · exact hkeep1 m hm
                  · intro m hm
                    exact List.mem_append_left _ (hcomp1 m hm)
                  · intro m hm
                    rw [List.mem_append, List.mem_singleton] at hm
                    rcases hm with hm | hm
                    · exact hfresh1 m hm
                    · exact Or.inr (hm ▸ hf)
                  · intro m hm
                    rw [alookup_cons] at hm
                    by_cases hnm : n = m
                    · exact Or.inr (hnm ▸ le_refl (rank n))
                    · rw [if_neg hnm] at hm
                      rcases hb1 m hm with hold | ⟨k, hk, hle⟩
                      · exact Or.inl hold
                      · exact Or.inr (le_of_lt (lt_of_le_of_lt hle
                          (hrank k hk)))

/-- Claim C3: within one rebuild_submodel invocation, every node instance
reachable from the frontier has its rebuild computation performed at most once
(the computation log holds no duplicates), every computed node is in the
finished cache afterwards (so any further path to it returns the cached pair),
and no node already present in the incoming finished cache is ever recomputed.
The rank hypothesis expresses that the graph is a DAG, as the data-model
invariant requires. -/
theorem rebuild_submodel_computes_each_node_once (model : Model)
    (rank : NodeId → Nat)
    (hrank : ∀ p ∈ model.nodes, ∀ m ∈ p.2.inbound, rank m < rank p.1)
    (outs : List NodeId) (subst : Subst) (fin : Finished) (masks : List Mask)
    (res : List (Tensor × Mask) × RState)
    (h : rebuild_submodel model outs subst fin masks = .ok res) :
    res.2.computed.Nodup ∧
    (∀ m ∈ res.2.computed, (alookup res.2.finished m).isSome = true) ∧
    (∀ m ∈ res.2.computed, alookup fin m = none) := by
  obtain ⟨rs, st2⟩ := res
  simp only [rebuild_submodel, rebuildList] at h
  split at h
  · cases h
  · have hr : ∀ (n : NodeId) (nd : NodeData),
        alookup model.nodes n = some nd → ∀ m ∈ nd.inbound, rank m < rank n :=
      fun n nd hn m hm => hrank (n, nd) (alookup_mem _ _ _ hn) m hm
    have hg0 : goodState ⟨fin, []⟩ := by
      constructor
      · exact List.nodup_nil
      · intro m hm
        simp at hm
    obtain ⟨⟨hnodup, hfin⟩, _, _, hfresh, _⟩ :=
      runList_inv _ rank (rebuild_inv _ rank hr (model.nodes.length + 1))
        outs ⟨fin, []⟩ rs st2 h hg0
    refine ⟨hnodup, hfin, ?_⟩
    intro m hm
    rcases hfresh m hm with hc | hnone
    · simp at hc
    · exact hnone

/-- Witness for claim C3 at the concrete diamond model: the shared ancestor
node 1 is reachable from both frontier nodes 2 and 3, and the computation log
of the rebuild is [1, 2, 3] with no duplicates. -/
theorem rebuild_submodel_computes_each_node_once_witness :
    (∀ p ∈ cDiamond.nodes, ∀ m ∈ p.2.inbound, cRank m < cRank p.1) ∧
    (cDiamondRes.2.computed.Nodup ∧
     (∀ m ∈ cDiamondRes.2.computed,
       (alookup cDiamondRes.2.finished m).isSome = true) ∧
     (∀ m ∈ cDiamondRes.2.computed, alookup ([] : Finished) m = none)) :=
  ⟨by decide,
   rebuild_submodel_computes_each_node_once cDiamond cRank (by decide)
     [2, 3] [] [] [] cDiamondRes (by decide)⟩

/-- Claim C2: during subgraph rebuilding, a node instance whose current output
tensor is a key of the substitution map returns the substitute directly, with
the state untouched — before consulting the finished-node cache and before
testing membership in the declared graph inputs (neither appears among the
hypotheses). -/
theorem rebuildRec_subst_overrides (env : REnv) (fuel : Nat) (n : NodeId)
    (nd : NodeData) (v : Tensor × Mask) (st : RState)
    (hn : alookup env.nodes n = some nd)
    (hs : alookup env.subst (Tensor.orig n) = some v) :
    rebuildRec env (fuel + 1) n st = .ok (v, st) := by
  simp only [rebuildRec, hn, hs]

/-- Witness for claim C2 at a concrete environment in which node 7's output is
simultaneously a substitution key, a declared model input, and a finished-cache
entry with a different value: the substitution wins. -/
theorem rebuildRec_subst_overrides_witness :
    alookup cSubstEnv.nodes 7 = some ⟨cLayerA, [0]⟩ ∧
    alookup cSubstEnv.subst (Tensor.orig 7) = some (Tensor.orig 99, none) ∧
    Tensor.orig 7 ∈ cSubstEnv.modelInputs ∧
    (alookup cSubstSt.finished 7).isSome = true ∧
    rebuildRec cSubstEnv (4 + 1) 7 cSubstSt =
      .ok ((Tensor.orig 99, none), cSubstSt) :=
  ⟨by decide, by decide, by decide, by decide,
   rebuildRec_subst_overrides cSubstEnv 4 7 ⟨cLayerA, [0]⟩
     (Tensor.orig 99, none) cSubstSt (by decide) (by decide)⟩

/-- Claim C4: the processing order reused_core_logic derives from the node
depths — reversed(sort_x_by_y(node_indices, node_depths)) — lists the node
indices in non-increasing depth order: the deepest instances (closest to the
graph inputs) come first. -/
theorem processingOrder_depth_nonincreasing (f : Nat → Nat) (idxs : List Nat) :
    List.Pairwise (fun i j => f j ≤ f i) (processingOrder idxs (idxs.map f)) := by
  unfold processingOrder sort_x_by_y
  rw [List.pairwise_reverse, List.pairwise_map]
  have hzip : (idxs.map f).zip idxs = idxs.map (fun i => (f i, i)) := by
    calc (idxs.map f).zip idxs
        = (idxs.map f).zip (idxs.map id) := by rw [List.map_id]
      _ = idxs.map (fun i => (f i, id i)) := List.zip_map' f id idxs
  have hsorted : List.Pairwise keyLe
      (((idxs.map f).zip idxs).insertionSort keyLe) :=
    List.sorted_insertionSort keyLe _
  have hmem : ∀ p ∈ ((idxs.map f).zip idxs).insertionSort keyLe,
      p.1 = f p.2 := by
    intro p hp
    have hp2 : p ∈ (idxs.map f).zip idxs :=
      (List.perm_insertionSort keyLe _).mem_iff.mp hp
    rw [hzip, List.mem_map] at hp2
    obtain ⟨i, _, rfl⟩ := hp2
    rfl
  exact List.Pairwise.imp_of_mem
    (fun ha hb hr => by
      rename_i a b
      show f a.2 ≤ f b.2
      rw [← hmem a ha, ← hmem b hb]
      exact hr)
    hsorted

/-- Claim C7 counterexample: the delete_channels entry point does not default
its copy flag to True; its default is None, which is falsy, so by default no
isolating copy happens there. -/
theorem delete_channels_copy_default_not_isolate :
    delete_channels_copy_default = none ∧
    copyTruthy delete_channels_copy_default = false := ⟨rfl, rfl⟩

/-- Claim C7 amended: insert_layer, replace_layer and delete_layer default
their copy flag to True (truthy: the model is clean-copied before the edit and
the result clean-copied again), while delete_channels defaults it to None
(falsy: no copy at all by default). -/
theorem copy_flag_defaults :
    insert_layer_copy_default = some true ∧
    replace_layer_copy_default = some true ∧
    delete_layer_copy_default = some true ∧
    delete_channels_copy_default = none ∧
    copyTruthy (some true) = true ∧
    copyTruthy none = false := ⟨rfl, rfl, rfl, rfl, rfl, rfl⟩

/-- Claim C1 counterexample: applying a non-absent inbound delete mask to a
concrete Dense layer produces the all-true outbound mask over its output
shape, which is not the absent mask — so the deletion does cascade a
(non-absent) mask to downstream operations. -/
theorem dense_outbound_mask_not_absent :
    _apply_delete_mask cDense [some cMask] =
      .ok (cDenseOut, some (Nd.a [.b true, .b true])) ∧
    some (Nd.a [Nd.b true, Nd.b true]) ≠ (none : Mask) := by
  constructor
  · decide
  · simp

/-- Claim C1 amended: a Dense operation given a single non-absent inbound
delete mask produces, whenever the weight trimming succeeds, the all-true
outbound mask over its output shape — a non-absent mask, so downstream
operations receive a non-absent (but all-true) mask rather than an absent
one. -/
theorem dense_outbound_mask_all_true (layer : Layer) (m : Nd) (l2 : Layer)
    (om : Mask) (hc : layer.cls = "Dense")
    (h : _apply_delete_mask layer [some m] = .ok (l2, om)) :
    om = some (ndOnes layer.outputShape) ∧ om ≠ none := by
  simp only [_apply_delete_mask, extractMask, List.all_cons, List.all_nil,
    Option.isNone_some, Bool.false_and, Bool.false_eq_true, if_false, hc] at h
  simp only [show ("Dense" = "InputLayer") = False by simp,
    show ("Dense" = "Dense") = True by simp, if_false, if_true] at h
  cases hw : layer.weights with
  | nil => simp only [hw] at h; cases h
  | cons w0 rest =>
    simp only [hw] at h
    cases hsel : selectRows w0 (npWhere0 m) with
    | error e => simp only [hsel] at h; cases h
    | ok k =>
      simp only [hsel] at h
      cases h
      exact ⟨rfl, by simp⟩

/-- Witness for claim C1 amended at the concrete Dense layer. -/
theorem dense_outbound_mask_all_true_witness :
    cDense.cls = "Dense" ∧
    (some (Nd.a [Nd.b true, Nd.b true]) = some (ndOnes cDense.outputShape) ∧
     some (Nd.a [Nd.b true, Nd.b true]) ≠ (none : Mask)) :=
  ⟨rfl, dense_outbound_mask_all_true cDense cMask cDenseOut
    (some (Nd.a [.b true, .b true])) rfl (by decide)⟩

/-- Claim C9: when a Dense operation is given a single non-absent inbound
delete mask, only the first weight tensor (the kernel) is trimmed — it is
replaced by its rows at the mask's true positions — and every other weight
tensor, including the bias, is carried into the rebuilt operation
unchanged. -/
theorem dense_mask_trims_only_kernel (layer : Layer) (m : Nd) (l2 : Layer)
    (om : Mask) (hc : layer.cls = "Dense")
    (h : _apply_delete_mask layer [some m] = .ok (l2, om)) :
    ∃ (w0 : Nd) (rest : List Nd) (k : Nd),
      layer.weights = w0 :: rest ∧
      selectRows w0 (npWhere0 m) = .ok k ∧
      l2.weights = k :: rest := by
  simp only [_apply_delete_mask, extractMask, List.all_cons, List.all_nil,
    Option.isNone_some, Bool.false_and, Bool.false_eq_true, if_false, hc] at h
  simp only [show ("Dense" = "InputLayer") = False by simp,
    show ("Dense" = "Dense") = True by simp, if_false, if_true] at h
  cases hw : layer.weights with
  | nil => simp only [hw] at h; cases h
  | cons w0 rest =>
    simp only [hw] at h
    cases hsel : selectRows w0 (npWhere0 m) with
    | error e => simp only [hsel] at h; cases h
    | ok k =>
      simp only [hsel] at h
      cases h
      exact ⟨w0, rest, k, rfl, hsel, rfl⟩

/-- Witness for claim C9 at the concrete Dense layer: the kernel loses its
middle row, the bias [7, 8] is unchanged. -/
theorem dense_mask_trims_only_kernel_witness :
    cDense.cls = "Dense" ∧
    (∃ (w0 : Nd) (rest : List Nd) (k : Nd),
      cDense.weights = w0 :: rest ∧
      selectRows w0 (npWhere0 cMask) = .ok k ∧
      cDenseOut.weights = k :: rest) :=
  ⟨rfl, dense_mask_trims_only_kernel cDense cMask cDenseOut
    (some (Nd.a [.b true, .b true])) rfl (by decide)⟩

theorem dcw_oob (layer : Layer) (idxs : List Nat) (cnt : Int)
    (hu : layer.units = some cnt ∨
      (layer.units = none ∧ layer.filters = some cnt))
    (hbad : ∃ j ∈ idxs, cnt < (j : Int) + 1) :
    _delete_channel_weights layer idxs = .error .channelIndexOutOfRange := by
  obtain ⟨j, hj, hjlt⟩ := hbad
  have hany : (idxs.any fun j => decide ((j : Int) + 1 > cnt)) = true := by
    rw [List.any_eq_true]
    exact ⟨j, hj, by simpa using hjlt⟩
  rcases hu with hu | ⟨hu, hf⟩
  · simp only [_delete_channel_weights, hu, hany, if_true]
  · simp only [_delete_channel_weights, hu, hf, hany, if_true]

/-- Claim C6: a delete_channels call in which some requested channel index is
at least the target operation's declared channel count (its units or filters
config entry) fails with the channel-index-out-of-range error; no new graph is
returned, and since the embedding is pure the original model value is
untouched. -/
theorem delete_channels_index_out_of_range (model : Model) (layer : Layer)
    (idxs : List Nat) (nodeIndices : List Nat) (copy : Option Bool) (cnt : Int)
    (hu : layer.units = some cnt ∨
      (layer.units = none ∧ layer.filters = some cnt))
    (hbad : ∃ j ∈ idxs, cnt < (j : Int) + 1) :
    delete_channels model layer idxs nodeIndices copy =
      .error .channelIndexOutOfRange := by
  simp only [delete_channels, dcw_oob layer idxs cnt hu hbad]

/-- Witness for claim C6: deleting channel 10 of a five-channel operation that
is applied in the model fails with the out-of-range error. -/
theorem delete_channels_index_out_of_range_witness :
    (cFive.units = some 5 ∨ (cFive.units = none ∧ cFive.filters = some 5)) ∧
    (∃ j ∈ [10], (5 : Int) < (j : Int) + 1) ∧
    delete_channels cFiveModel cFive [10] [] none =
      .error .channelIndexOutOfRange :=
  ⟨Or.inl rfl, ⟨10, by decide, by decide⟩,
   delete_channels_index_out_of_range cFiveModel cFive [10] [] none 5
     (Or.inl rfl) ⟨10, by decide, by decide⟩⟩

/-- Claim C10: delete_channels builds the trimmed operation before validating
the target against the model, so even for a layer absent from the model an
out-of-range channel index surfaces as the channel-index error, not as the
operation-not-found error. -/
theorem delete_channels_oob_before_membership (model : Model) (layer : Layer)
    (idxs : List Nat) (nodeIndices : List Nat) (copy : Option Bool) (cnt : Int)
    (_hnotin : layer ∉ model.layers)
    (hu : layer.units = some cnt ∨
      (layer.units = none ∧ layer.filters = some cnt))
    (hbad : ∃ j ∈ idxs, cnt < (j : Int) + 1) :
    delete_channels model layer idxs nodeIndices copy =
      .error .channelIndexOutOfRange ∧
    delete_channels model layer idxs nodeIndices copy ≠
      .error .operationNotFound := by
  have he : delete_channels model layer idxs nodeIndices copy =
      .error .channelIndexOutOfRange := by
    simp only [delete_channels, dcw_oob layer idxs cnt hu hbad]
  exact ⟨he, by rw [he]; simp⟩

/-- Witness for claim C10: cOrphan occurs in no model; deleting its channel 10
from the diamond model (which does not contain it) reports the channel-index
error rather than operation-not-found. -/
theorem delete_channels_oob_before_membership_witness :
    cOrphan ∉ cDiamond.layers ∧
    (delete_channels cDiamond cOrphan [10] [] none =
      .error .channelIndexOutOfRange ∧
     delete_channels cDiamond cOrphan [10] [] none ≠
      .error .operationNotFound) :=
  ⟨by decide,
   delete_channels_oob_before_membership cDiamond cOrphan [10] [] none 5
     (by decide) (Or.inl rfl) ⟨10, by decide, by decide⟩⟩

theorem countP_not_add {α : Type} (p : α → Bool) (l : List α) :
    (l.filter (fun a => !(p a))).length + (l.filter p).length = l.length := by
  induction l with
  | nil => simp
  | cons a l ih =>
    by_cases hp : p a = true
    · simp [List.filter_cons, hp]
      omega
    · simp [List.filter_cons, hp]
      omega

theorem filter_contains_length (idxs : List Nat) (L : Nat)
    (hlt : ∀ j ∈ idxs, j < L) :
    ((List.range L).filter (fun j => idxs.contains j)).length
      = idxs.dedup.length := by
  have hnd : ((List.range L).filter (fun j => idxs.contains j)).Nodup :=
    (List.nodup_range L).filter _
  have hmem : ∀ a, a ∈ (List.range L).filter (fun j => idxs.contains j) ↔
      a ∈ idxs.dedup := by
    intro a
    simp only [List.mem_filter, List.mem_range, List.mem_dedup]
    constructor
    · rintro ⟨_, ha⟩
      exact List.elem_iff.mp ha
    · intro ha
      exact ⟨hlt a ha, List.elem_iff.mpr ha⟩
  exact ((List.perm_ext_iff_of_nodup hnd idxs.nodup_dedup).mpr hmem).length_eq

theorem length_filter_not_contains (idxs : List Nat) (L : Nat)
    (hlt : ∀ j ∈ idxs, j < L) :
    ((List.range L).filter (fun j => !(idxs.contains j))).length
      = L - idxs.dedup.length := by
  have h1 := filter_contains_length idxs L hlt
  have h2 := countP_not_add (fun j => idxs.contains j) (List.range L)
  rw [List.length_range] at h2
  omega

theorem dedup_length_le (idxs : List Nat) (L : Nat)
    (hlt : ∀ j ∈ idxs, j < L) : idxs.dedup.length ≤ L := by
  have h1 := filter_contains_length idxs L hlt
  have h2 := List.length_filter_le (fun j => idxs.contains j) (List.range L)
  rw [List.length_range] at h2
  omega

theorem ndDeleteLastList_forall2 (idxs : List Nat) :
    ∀ (ws ws2 : List Nd), ndDeleteLastList idxs ws = .ok ws2 →
      List.Forall₂ (fun w w2 => ndDeleteLast idxs w = .ok w2) ws ws2 := by
  intro ws
  induction ws with
  | nil =>
    intro ws2 h
    simp only [ndDeleteLastList] at h
    cases h
    exact List.Forall₂.nil
  | cons w ws ih =>
    intro ws2 h
    simp only [ndDeleteLastList] at h
    cases h1 : ndDeleteLast idxs w with
    | error e => simp only [h1] at h; cases h
    | ok y =>
      simp only [h1] at h
      cases h2 : ndDeleteLastList idxs ws with
      | error e => simp only [h2] at h; cases h
      | ok ys =>
        simp only [h2] at h
        cases h
        exact List.Forall₂.cons h1 (ih ys h2)

theorem forall2_mem_left {α β : Type} {r : α → β → Prop} :
    ∀ {xs : List α} {ys : List β}, List.Forall₂ r xs ys →
      ∀ a ∈ xs, ∃ b ∈ ys, r a b := by
  intro xs ys h
  induction h with
  | nil => intro a ha; cases ha
  | cons hr hrest ih =>
    intro a ha
    rcases List.mem_cons.mp ha with rfl | ha2
    · exact ⟨_, List.mem_cons_self _ _, hr⟩
    · obtain ⟨b, hb, hrb⟩ := ih a ha2
      exact ⟨b, List.mem_cons_of_mem _ hb, hrb⟩

theorem ndDeleteLast_flat (idxs : List Nat) (bs : List Nd)
    (hscal : bs.all Nd.isScalar = true) (hlt : ∀ j ∈ idxs, j < bs.length) :
    ndDeleteLast idxs (.a bs) =
      .ok (.a (((List.range bs.length).filter
        (fun j => !(idxs.contains j))).map (fun j => bs.getD j (.i 0)))) := by
  have hall : (idxs.all fun j => decide (j < bs.length)) = true := by
    rw [List.all_eq_true]
    intro j hj
    simpa using hlt j hj
  simp only [ndDeleteLast, hscal, hall, if_true]

/-- Claim C8: when the channel-index list passed to _delete_channel_weights
contains duplicates (all indices valid), the rebuilt operation's declared
units count drops by the full list length (duplicates counted), while a 1-D
weight tensor such as the bias only loses one entry per distinct index — so
the declared channel count and the trimmed weight length disagree. -/
theorem delete_channel_weights_dup_mismatch (layer : Layer) (u : Int)
    (idxs : List Nat) (l2 : Layer) (bs : List Nd)
    (hu : layer.units = some u)
    (hdup : idxs.dedup.length < idxs.length)
    (hbias : Nd.a bs ∈ layer.weights)
    (hscal : bs.all Nd.isScalar = true)
    (hlt : ∀ j ∈ idxs, j < bs.length)
    (hub : (bs.length : Int) = u)
    (h : _delete_channel_weights layer idxs = .ok l2) :
    l2.units = some (u - idxs.length) ∧
    ∃ ys : List Nd, Nd.a ys ∈ l2.weights ∧
      ys.length = bs.length - idxs.dedup.length ∧
      l2.units ≠ some ((ys.length : Int)) := by
  simp only [_delete_channel_weights, hu] at h
  have hnone : (idxs.any fun j => decide ((j : Int) + 1 > u)) = false := by
    rw [List.any_eq_false]
    intro j hj
    have := hlt j hj
    simp only [decide_eq_true_eq]
    omega
  simp only [hnone, Bool.false_eq_true, if_false] at h
  cases hdl : ndDeleteLastList idxs layer.weights with
  | error e => simp only [hdl] at h; cases h
  | ok ws =>
    simp only [hdl, if_true] at h
    cases h
    refine ⟨rfl, ?_⟩
    obtain ⟨w2, hw2mem, hw2⟩ :=
      forall2_mem_left (ndDeleteLastList_forall2 idxs layer.weights ws hdl)
        (Nd.a bs) hbias
    rw [ndDeleteLast_flat idxs bs hscal hlt] at hw2
    cases hw2
    refine ⟨_, hw2mem, ?_, ?_⟩
    · rw [List.length_map]
      exact length_filter_not_contains idxs bs.length hlt
    · rw [List.length_map, length_filter_not_contains idxs bs.length hlt]
      have hle := dedup_length_le idxs bs.length hlt
      intro heq
      rw [Option.some_inj] at heq
      omega

/-- Witness for claim C8: deleting channels [1, 1] from the five-unit layer
drops its declared units to 3 but only removes one bias entry (length 4), so
the declared count disagrees with the trimmed shape. -/
theorem delete_channel_weights_dup_mismatch_witness :
    ([1, 1] : List Nat).dedup.length < ([1, 1] : List Nat).length ∧
    Nd.a [.i 10, .i 20, .i 30, .i 40, .i 50] ∈ cFive.weights ∧
    _delete_channel_weights cFive [1, 1] = .ok cFiveDup ∧
    (cFiveDup.units = some ((5 : Int) - ([1, 1] : List Nat).length) ∧
     ∃ ys : List Nd, Nd.a ys ∈ cFiveDup.weights ∧
       ys.length = ([Nd.i 10, .i 20, .i 30, .i 40, .i 50] : List Nd).length -
         ([1, 1] : List Nat).dedup.length ∧
       cFiveDup.units ≠ some ((ys.length : Int))) :=
  ⟨by decide, by decide, by decide,
   delete_channel_weights_dup_mismatch cFive 5 [1, 1] cFiveDup
     [.i 10, .i 20, .i 30, .i 40, .i 50] rfl (by decide) (by decide)
     (by decide) (by decide) (by decide) (by decide)⟩

theorem core_logic_modifier_error (model : Model) (layer : Layer)
    (modifier : Model → Layer → Nat → List Tensor → Except Err Subst)
    (masks : List Mask) (i : Nat) (nid : NodeId) (nd : NodeData)
    (outs : List (Tensor × Mask)) (st : RState) (e : Err)
    (hmem : layer ∈ model.layers)
    (hnode : (layerNodes model layer).get? i = some nid)
    (hdata : alookup model.nodes nid = some nd)
    (hreb : rebuild_submodel model nd.inbound [] [] masks = .ok (outs, st))
    (hmod : modifier model layer i (outs.map (fun p => p.1)) = .error e) :
    reused_core_logic model layer modifier [i] (some false) masks =
      .error e := by
  unfold reused_core_logic
  rw [if_neg (not_not_intro hmem)]
  simp only [show ([i] : List Nat).isEmpty = false from rfl, Bool.false_eq_true,
    if_false]
  simp only [show copyTruthy (some false) = false from rfl, Bool.false_eq_true,
    if_false]
  simp only [optionMap, hnode]
  simp only [processingOrder, sort_x_by_y, List.map_cons, List.map_nil,
    List.zip_cons_cons, List.zip_nil_right, List.insertionSort,
    List.orderedInsert, List.reverse_cons, List.reverse_nil, List.nil_append]
  simp only [coreLoop, hnode, hdata, hreb, hmod]

/-- Claim C5 counterexample: replace_layer targeted at node 2 of cTwoIn, a
node instance with two inbound edges, does not fail with the multi-input
error — it succeeds and returns the rebuilt model, because _replace_layer
performs no multiple-inbound-layer check. -/
theorem replace_layer_multi_input_not_rejected :
    alookup cTwoIn.nodes 2 = some ⟨cAdd, [0, 1]⟩ ∧
    replace_layer cTwoIn cAdd cNew [0] (some false) =
      .ok ⟨[.orig 0, .orig 1], [.applied cNew [.orig 0, .orig 1]]⟩ := by
  constructor
  · decide
  · decide

/-- Claim C5 amended: insert_layer and delete_layer targeted at a node
instance with two or more inbound edges fail with the multi-input error (the
check happens in their callbacks, after the predecessor subgraph has been
rebuilt); replace_layer performs no such check. -/
theorem insert_delete_reject_multi_input (model : Model)
    (layer newLayer : Layer) (i : Nat) (nid : NodeId) (nd : NodeData)
    (outs : List (Tensor × Mask)) (st : RState)
    (hmem : layer ∈ model.layers)
    (hnode : (layerNodes model layer).get? i = some nid)
    (hdata : alookup model.nodes nid = some nd)
    (hmulti : 2 ≤ nd.inbound.length)
    (hreb : rebuild_submodel model nd.inbound [] [] [] = .ok (outs, st)) :
    insert_layer model layer newLayer [i] (some false) =
      .error .multiInputUnsupported ∧
    delete_layer model layer [i] (some false) =
      .error .multiInputUnsupported := by
  have hne : nd.inbound.isEmpty = false := by
    cases hcase : nd.inbound with
    | nil => rw [hcase] at hmulti; simp at hmulti
    | cons a l => rfl
  have hlen : outs.length = nd.inbound.length := by
    have h2 := hreb
    simp only [rebuild_submodel, rebuildList, hne, Bool.false_eq_true,
      if_false] at h2
    exact runList_length _ _ _ _ _ h2
  have hmulti2 : 2 ≤ (outs.map (fun p => p.1)).length := by
    rw [List.length_map, hlen]
    exact hmulti
  constructor
  · exact core_logic_modifier_error model layer (insertModifier newLayer) []
      i nid nd outs st Err.multiInputUnsupported hmem hnode hdata hreb
      (by unfold insertModifier; rw [if_pos hmulti2])
  · exact core_logic_modifier_error model layer deleteLayerModifier []
      i nid nd outs st Err.multiInputUnsupported hmem hnode hdata hreb
      (by unfold deleteLayerModifier; rw [if_pos hmulti2])

/-- Witness for claim C5 amended at the two-input model: inserting before or
deleting the two-input node fails with the multi-input error. -/
theorem insert_delete_reject_multi_input_witness :
    cAdd ∈ cTwoIn.layers ∧
    (layerNodes cTwoIn cAdd).get? 0 = some 2 ∧
    alookup cTwoIn.nodes 2 = some ⟨cAdd, [0, 1]⟩ ∧
    rebuild_submodel cTwoIn [0, 1] [] [] [] = .ok cTwoInRes ∧
    (insert_layer cTwoIn cAdd cNew [0] (some false) =
      .error .multiInputUnsupported ∧
     delete_layer cTwoIn cAdd [0] (some false) =
      .error .multiInputUnsupported) :=
  ⟨by decide, by decide, by decide, by decide,
   insert_delete_reject_multi_input cTwoIn cAdd cNew 0 2 ⟨cAdd, [0, 1]⟩
     cTwoInRes.1 cTwoInRes.2 (by decide) (by decide) (by decide) (by decide)
     (by decide)⟩

end KerasPrune
